import Mathlib

/-!
# Portfolio page script (`assets/js/script.js`)

A shallow embedding of the client-side script: the scroll throttle
(`optimizeScrollPerformance`), the staggered reveal timers
(`animateSkillTags`, `animateServiceCards`), the intersection callback of
`setupScrollAnimations`, the initials derivation (`updateProfileInitials`) and
the click handler of `setupSmoothScrolling`.

Conventions of the embedding:
* JavaScript numbers that hold scroll offsets and heights are rationals
  (`scrolled * -0.5` is a halving, which is exact in binary floating point);
* timer delays and the clock are natural numbers of milliseconds, and a timer
  callback runs at the instant it is due (callbacks take no time);
* JavaScript strings that are computed on are lists of UTF-16 code units;
  string constants of the script are kept as strings.
-/

namespace Portfolio

/-! ## Scroll throttle: `optimizeScrollPerformance` -/

/-- Inline `transform` of the header element: either the value the page had
before the script touched it, or the template literal
`translateY(${rate}px)` written by `updateScrollPosition`. -/
inductive HeaderTransform where
  | initial (css : String)
  | translateYpx (rate : ℚ)
  deriving DecidableEq

/-- The closure state of `optimizeScrollPerformance` together with the part of
the browser it reads and writes. `header` is `document.querySelector('header')`
(`none` when the page has no header) with its inline transform;
`pendingFrames` counts the callbacks handed to `requestAnimationFrame` that
have not run yet; `updates` counts the executions of `updateScrollPosition`. -/
structure ScrollCoordinator where
  ticking : Bool
  pendingFrames : Nat
  pageYOffset : ℚ
  innerHeight : ℚ
  header : Option HeaderTransform
  updates : Nat
  deriving DecidableEq

/-- The inner function `updateScrollPosition` (script.js lines 270-281). -/
def updateScrollPosition (s : ScrollCoordinator) : ScrollCoordinator :=
  let scrolled := s.pageYOffset
  let rate := scrolled * (-0.5)
  let header :=
    match s.header with
    | some t => if scrolled < s.innerHeight then some (HeaderTransform.translateYpx rate) else some t
    | none => none
  { s with header := header, ticking := false, updates := s.updates + 1 }

/-- The inner function `requestTick` (script.js lines 283-288). -/
def requestTick (s : ScrollCoordinator) : ScrollCoordinator :=
  if !s.ticking then
    { s with pendingFrames := s.pendingFrames + 1, ticking := true }
  else s

/-- State right after `optimizeScrollPerformance()` returns: `ticking = false`
and nothing registered with `requestAnimationFrame`. -/
def optimizeScrollPerformance (pageYOffset innerHeight : ℚ)
    (header : Option HeaderTransform) : ScrollCoordinator :=
  { ticking := false, pendingFrames := 0, pageYOffset := pageYOffset,
    innerHeight := innerHeight, header := header, updates := 0 }

/-- What the browser can deliver to the coordinator: a scroll event (the page
offset has become `y`, the listener `requestTick` runs), a resize of the
viewport, or an animation frame (every registered frame callback runs). -/
inductive BrowserEvent where
  | scroll (y : ℚ)
  | resize (h : ℚ)
  | animationFrame

/-- Run the `n` frame callbacks taken from the frame-callback list; each of
them is `updateScrollPosition`, the only function the script registers. -/
def runFrameCallbacks : Nat → ScrollCoordinator → ScrollCoordinator
  | 0, s => s
  | n + 1, s => runFrameCallbacks n (updateScrollPosition s)

/-- One browser event delivered to the coordinator. -/
def dispatch (s : ScrollCoordinator) : BrowserEvent → ScrollCoordinator
  | BrowserEvent.scroll y => requestTick { s with pageYOffset := y }
  | BrowserEvent.resize h => { s with innerHeight := h }
  | BrowserEvent.animationFrame =>
      runFrameCallbacks s.pendingFrames { s with pendingFrames := 0 }

/-- The coordinator is idle: no frame callback registered, flag clear. -/
def Idle (s : ScrollCoordinator) : Prop :=
  s.ticking = false ∧ s.pendingFrames = 0

/-- The coordinator has exactly one frame callback registered, flag set. -/
def FrameScheduled (s : ScrollCoordinator) : Prop :=
  s.ticking = true ∧ s.pendingFrames = 1

/-! ## Timers and inline styles: `animateSkillTags`, `animateServiceCards` -/

/-- Elements of the document are named by numbers. -/
abbrev ElemId := Nat

/-- The inline style properties the stagger callbacks assign. -/
inductive StyleProp where
  | opacity
  | transform
  | transition
  deriving DecidableEq

/-- The inline style of one element, as far as the script writes it. -/
structure InlineStyle where
  opacity : String
  transform : String
  transition : String
  deriving DecidableEq

/-- The assignment `element.style.<prop> = value`. -/
def InlineStyle.assign (st : InlineStyle) : StyleProp × String → InlineStyle
  | (StyleProp.opacity, v) => { st with opacity := v }
  | (StyleProp.transform, v) => { st with transform := v }
  | (StyleProp.transition, v) => { st with transition := v }

/-- The four arrow functions the script hands to `setTimeout`, each with the
element it has captured: the outer and inner callbacks of `animateSkillTags`
(lines 94-103 and 99-102) and of `animateServiceCards` (lines 114-123 and
119-122). -/
inductive TimerCallback where
  | hideTag (tag : ElemId)
  | showTag (tag : ElemId)
  | hideCard (card : ElemId)
  | showCard (card : ElemId)
  deriving DecidableEq

/-- A registered timer: the instant it is due and its callback. -/
structure Timer where
  due : Nat
  callback : TimerCallback
  deriving DecidableEq

/-- One execution of a timer callback's style assignments, as observed from
outside: when, on which element, which assignments in order. -/
structure StyleEvent where
  time : Nat
  target : ElemId
  assigns : List (StyleProp × String)
  deriving DecidableEq

/-- The page as the script sees it. `skillTags g` and `serviceCards g` are the
results of `g.querySelectorAll('.skill-tag')` and
`g.querySelectorAll('.service-card')` in document order; `observed` is the set
of elements the observer of `setupScrollAnimations` watches; `timers` are the
registered timeouts in registration order; `trace` records the style
assignments performed by timer callbacks and `reveals` records each execution
of the reveal branch of the intersection callback. -/
structure Page where
  now : Nat
  timers : List Timer
  style : ElemId → InlineStyle
  classList : ElemId → List String
  skillTags : ElemId → List ElemId
  serviceCards : ElemId → List ElemId
  observed : List ElemId
  trace : List StyleEvent
  reveals : List ElemId

/-- The call `setTimeout(callback, delay)`. -/
def setTimeout (callback : TimerCallback) (delay : Nat) (p : Page) : Page :=
  { p with timers := p.timers ++ [{ due := p.now + delay, callback := callback }] }

/-- Perform `assigns` on the inline style of `target`, in order. -/
def writeStyle (target : ElemId) (assigns : List (StyleProp × String)) (p : Page) : Page :=
  { p with
    style := Function.update p.style target (assigns.foldl InlineStyle.assign (p.style target))
    trace := p.trace ++ [{ time := p.now, target := target, assigns := assigns }] }

/-- Assignments of lines 95-97. -/
def tagHidden : List (StyleProp × String) :=
  [(StyleProp.opacity, "0"), (StyleProp.transform, "translateY(20px)"),
   (StyleProp.transition, "all 0.3s ease")]

/-- Assignments of lines 100-101. -/
def tagVisible : List (StyleProp × String) :=
  [(StyleProp.opacity, "1"), (StyleProp.transform, "translateY(0)")]

/-- Assignments of lines 115-117. -/
def cardHidden : List (StyleProp × String) :=
  [(StyleProp.opacity, "0"), (StyleProp.transform, "translateY(30px)"),
   (StyleProp.transition, "all 0.4s ease")]

/-- Assignments of lines 120-121. -/
def cardVisible : List (StyleProp × String) :=
  [(StyleProp.opacity, "1"), (StyleProp.transform, "translateY(0)")]

/-- Body of a timer callback. -/
def runCallback (p : Page) : TimerCallback → Page
  | TimerCallback.hideTag tag => setTimeout (TimerCallback.showTag tag) 50 (writeStyle tag tagHidden p)
  | TimerCallback.showTag tag => writeStyle tag tagVisible p
  | TimerCallback.hideCard card =>
      setTimeout (TimerCallback.showCard card) 100 (writeStyle card cardHidden p)
  | TimerCallback.showCard card => writeStyle card cardVisible p

/-- `NodeList.forEach((element, index) => ...)`, counting from `index`. -/
def forEachFrom (f : ElemId → Nat → Page → Page) : Nat → List ElemId → Page → Page
  | _, [], p => p
  | index, x :: xs, p => forEachFrom f (index + 1) xs (f x index p)

/-- The function `animateSkillTags` (script.js lines 90-105). -/
def animateSkillTags (skillsGrid : ElemId) (p : Page) : Page :=
  let skillTags := p.skillTags skillsGrid
  forEachFrom (fun tag index q => setTimeout (TimerCallback.hideTag tag) (index * 50) q) 0 skillTags p

/-- The function `animateServiceCards` (script.js lines 110-125). -/
def animateServiceCards (servicesGrid : ElemId) (p : Page) : Page :=
  let serviceCards := p.serviceCards servicesGrid
  forEachFrom (fun card index q => setTimeout (TimerCallback.hideCard card) (index * 100) q) 0
    serviceCards p

/-- The timer the event loop runs next: the earliest due one, and among
equally due ones the one registered first. -/
def nextTimer : List Timer → Option Timer
  | [] => none
  | t :: ts =>
    match nextTimer ts with
    | none => some t
    | some u => if t.due ≤ u.due then some t else some u

/-- Let the event loop run the next timer, if any is registered: the clock
moves to its due time, the timer leaves the list and its callback runs. -/
def fireNext (p : Page) : Option Page :=
  match nextTimer p.timers with
  | none => none
  | some t =>
    some (runCallback { p with now := max p.now t.due, timers := p.timers.erase t } t.callback)

/-- Let the event loop run timers until none is left, at most `fuel` of them. -/
def runTimers : Nat → Page → Page
  | 0, p => p
  | fuel + 1, p =>
    match fireNext p with
    | none => p
    | some q => runTimers fuel q

/-- Callback executions a timer still stands for: two for an outer callback
(itself and the inner one it registers), one for an inner callback. -/
def TimerCallback.work : TimerCallback → Nat
  | TimerCallback.hideTag _ => 2
  | TimerCallback.showTag _ => 1
  | TimerCallback.hideCard _ => 2
  | TimerCallback.showCard _ => 1

/-- Callback executions the registered timers stand for. -/
def pendingWork (ts : List Timer) : Nat :=
  (ts.map fun t => t.callback.work).sum

/-- The instant at which the event loop runs a registered timer when the
clock reads `now`: its due time, or `now` if the due time has passed. -/
def Timer.fireTime (now : Nat) (t : Timer) : Nat :=
  max now t.due

/-- Style events a registered timer stands for when the clock reads `now`. -/
def Timer.promised (now : Nat) (t : Timer) : List StyleEvent :=
  match t.callback with
  | TimerCallback.hideTag tag =>
      [{ time := t.fireTime now, target := tag, assigns := tagHidden },
       { time := t.fireTime now + 50, target := tag, assigns := tagVisible }]
  | TimerCallback.showTag tag =>
      [{ time := t.fireTime now, target := tag, assigns := tagVisible }]
  | TimerCallback.hideCard card =>
      [{ time := t.fireTime now, target := card, assigns := cardHidden },
       { time := t.fireTime now + 100, target := card, assigns := cardVisible }]
  | TimerCallback.showCard card =>
      [{ time := t.fireTime now, target := card, assigns := cardVisible }]

/-- The trace so far followed by everything the registered timers stand for. -/
def Page.forecast (p : Page) : List StyleEvent :=
  p.trace ++ p.timers.flatMap (Timer.promised p.now)

/-- Starting from `q`, the callback the event loop runs after `k` earlier
callback executions is `callback`, and it runs when the clock reads `time`.
The page right after that execution is `runTimers (k + 1) q`. -/
def runsAt (q : Page) (k : Nat) (callback : TimerCallback) (time : Nat) : Bool :=
  match nextTimer (runTimers k q).timers with
  | some t => decide (t.callback = callback ∧ max (runTimers k q).now t.due = time)
  | none => false

/-- The stagger schedule: child `i` of `children` gets `hidden` at
`start + (from + i) * step` and `visible` a further `inner` later. -/
def staggerSchedule (start step inner : Nat) (hidden visible : List (StyleProp × String)) :
    Nat → List ElemId → List StyleEvent
  | _, [] => []
  | index, x :: xs =>
    { time := start + index * step, target := x, assigns := hidden } ::
    { time := start + index * step + inner, target := x, assigns := visible } ::
    staggerSchedule start step inner hidden visible (index + 1) xs

/-- The instants at which `assigns` was performed on `target`, in trace order. -/
def timesOf (trace : List StyleEvent) (target : ElemId) (assigns : List (StyleProp × String)) :
    List Nat :=
  (trace.filter fun e => decide (e.target = target ∧ e.assigns = assigns)).map StyleEvent.time

/-- A page with no timer registered, the clock at `now`, an empty trace, and the
given query results. -/
def freshPage (now : Nat) (skillTags serviceCards : ElemId → List ElemId)
    (classList : ElemId → List String) : Page :=
  { now := now, timers := [],
    style := fun _ => { opacity := "", transform := "", transition := "" },
    classList := classList, skillTags := skillTags, serviceCards := serviceCards,
    observed := [], trace := [], reveals := [] }

/-! ## Intersection observer: `setupScrollAnimations` -/

/-- What the script reads of an `IntersectionObserverEntry`. -/
structure IntersectionObserverEntry where
  target : ElemId
  isIntersecting : Bool
  deriving DecidableEq

/-- The call `element.classList.add(token)`: a token already present is not
added again. -/
def classListAdd (target : ElemId) (token : String) (p : Page) : Page :=
  if token ∈ p.classList target then p
  else { p with classList := Function.update p.classList target (p.classList target ++ [token]) }

/-- Body of the `entries.forEach` arrow function of the observer callback
(script.js lines 63-77) for one entry. Entering the `isIntersecting` branch is
recorded in `reveals`. -/
def revealEntry (p : Page) (entry : IntersectionObserverEntry) : Page :=
  if entry.isIntersecting then
    let p1 := classListAdd entry.target "fade-in" { p with reveals := p.reveals ++ [entry.target] }
    let p2 :=
      if "skills-grid" ∈ p1.classList entry.target then animateSkillTags entry.target p1 else p1
    if "services-grid" ∈ p2.classList entry.target then animateServiceCards entry.target p2 else p2
  else p

/-- The observer callback (script.js lines 62-78). -/
def intersectionCallback (entries : List IntersectionObserverEntry) (p : Page) : Page :=
  entries.foldl revealEntry p

/-- The call `observer.observe(element)`. -/
def observe (element : ElemId) (p : Page) : Page :=
  if element ∈ p.observed then p else { p with observed := p.observed ++ [element] }

/-- The function `setupScrollAnimations` (script.js lines 56-85);
`elementsToObserve` is the result of
`document.querySelectorAll('section, .skills-grid, .services-grid')`. -/
def setupScrollAnimations (elementsToObserve : List ElemId) (p : Page) : Page :=
  elementsToObserve.foldl (fun q element => observe element q) p

/-- The browser delivers a batch of entries to the observer callback: only
entries of elements the observer watches are reported. -/
def deliver (p : Page) (entries : List IntersectionObserverEntry) : Page :=
  intersectionCallback (entries.filter fun entry => decide (entry.target ∈ p.observed)) p

/-- How many times the reveal branch ran for `element`. -/
def revealCount (p : Page) (element : ElemId) : Nat :=
  p.reveals.count element

/-! ## Profile initials: `updateProfileInitials` -/

/-- A JavaScript string: its UTF-16 code units. -/
abbrev JSString := List Nat

/-- Code units `String.prototype.trim` strips (WhiteSpace and LineTerminator
of ECMAScript). -/
def isWhiteSpace (c : Nat) : Bool :=
  c = 9 || c = 10 || c = 11 || c = 12 || c = 13 || c = 32 || c = 160 || c = 5760 ||
  (8192 ≤ c && c ≤ 8202) || c = 8232 || c = 8233 || c = 8239 || c = 8287 || c = 12288 ||
  c = 65279

/-- Strip leading white space. -/
def trimStart (s : JSString) : JSString :=
  s.dropWhile isWhiteSpace

/-- Strip trailing white space. -/
def trimEnd (s : JSString) : JSString :=
  (s.reverse.dropWhile isWhiteSpace).reverse

/-- The method `String.prototype.trim`. -/
def trim (s : JSString) : JSString :=
  trimEnd (trimStart s)

/-- The call `s.split(sep)` for a separator of one code unit: the pieces
between the separators, empty pieces included. -/
def split (sep : Nat) : JSString → List JSString
  | [] => [[]]
  | c :: cs =>
    if c = sep then [] :: split sep cs
    else
      match split sep cs with
      | [] => [[c]]
      | w :: ws => (c :: w) :: ws

/-- The call `s.charAt(i)`: the code unit at `i` as a string, or the empty
string. -/
def charAt (s : JSString) (i : Nat) : JSString :=
  match s[i]? with
  | some c => [c]
  | none => []

/-- The call `parts.join('')`. -/
def join (parts : List JSString) : JSString :=
  parts.flatten

/-- The two elements `updateProfileInitials` looks up, each with its
`textContent`: `document.querySelector('.profile-placeholder')` and
`document.querySelector('h1')`; `none` when the element is absent. -/
structure ProfileDocument where
  profilePlaceholder : Option JSString
  nameElement : Option JSString
  deriving DecidableEq

/-- The function `updateProfileInitials` (script.js lines 130-144).
`toUpperCase` is `String.prototype.toUpperCase` of the host. -/
def updateProfileInitials (toUpperCase : JSString → JSString) (doc : ProfileDocument) :
    ProfileDocument :=
  match doc.profilePlaceholder, doc.nameElement with
  | some _, some textContent =>
    let name := trim textContent
    let initials :=
      join (((split 32 name).filter fun word => decide (word.length > 0)).map
        fun word => toUpperCase (charAt word 0))
    { doc with profilePlaceholder := some initials }
  | _, _ => doc

/-- A run of `k` space characters. -/
def spaces (k : Nat) : JSString :=
  List.replicate k 32

/-- A name text: `lead` spaces, the word `first`, then each further word
preceded by one more space than the number paired with it, then `trail`
spaces. -/
def spacedName (lead : Nat) (first : JSString) (rest : List (Nat × JSString)) (trail : Nat) :
    JSString :=
  spaces lead ++ (first ++ rest.flatMap fun gw => spaces (gw.1 + 1) ++ gw.2) ++ spaces trail

/-- A word: not empty and free of white space. -/
def IsWord (w : JSString) : Prop :=
  w ≠ [] ∧ ∀ c ∈ w, isWhiteSpace c = false

/-! ## Smooth scrolling: the click handler of `setupSmoothScrolling` -/

/-- A thrown JavaScript exception. -/
inductive JSError where
  | typeError (message : String)
  | syntaxError (message : String)
  deriving DecidableEq

/-- The rectangle a geometry method returns; the script reads `top`. -/
structure DOMRect where
  top : ℚ
  deriving DecidableEq

/-- The argument of `window.scrollTo`. -/
structure ScrollToOptions where
  top : ℚ
  behavior : String
  deriving DecidableEq

/-- The part of the window the click handler touches: the page offset, the
calls of `window.scrollTo` so far, the URLs pushed with `history.pushState`
so far, and whether `preventDefault` was called on the click event. -/
structure Browser where
  pageYOffset : ℚ
  scrollRequests : List ScrollToOptions
  pushedUrls : List JSString
  defaultPrevented : Bool
  deriving DecidableEq

/-- The document as the click handler queries it: `querySelector` returns the
first matching element, `null` (`none`) when none matches, or throws for a
selector it cannot parse; `boundingClientRect` is the geometry of an element
relative to the viewport. -/
structure NavDocument where
  querySelector : JSString → Except JSError (Option ElemId)
  boundingClientRect : ElemId → DOMRect

/-- Property lookup of a geometry method on an element, by name. The DOM
`Element` interface has `getBoundingClientRect`; any other name of this kind
(the script asks for `getBoundingClientPosition`) is `undefined`. -/
def elementMethod (doc : NavDocument) (name : String) : Option (ElemId → DOMRect) :=
  if name = "getBoundingClientRect" then some doc.boundingClientRect else none

/-- How a handler run ends: the window afterwards and the exception that
ended it, if any. -/
structure HandlerResult where
  browser : Browser
  thrown : Option JSError
  deriving DecidableEq

/-- The click listener installed by `setupSmoothScrolling` (script.js lines
30-49) on a link whose `href` attribute is `href`. -/
def navLinkClick (doc : NavDocument) (href : JSString) (b : Browser) : HandlerResult :=
  let b1 : Browser := { b with defaultPrevented := true }
  let targetId := href
  match doc.querySelector targetId with
  | Except.error e => HandlerResult.mk b1 (some e)
  | Except.ok none => HandlerResult.mk b1 none
  | Except.ok (some target) =>
    let headerOffset : ℚ := 80
    match elementMethod doc "getBoundingClientPosition" with
    | none =>
      HandlerResult.mk b1
        (some (JSError.typeError "target.getBoundingClientPosition is not a function"))
    | some method =>
      let elementPosition := (method target).top
      let offsetPosition := elementPosition + b1.pageYOffset - headerOffset
      let b2 : Browser := { b1 with
        scrollRequests := b1.scrollRequests ++ [{ top := offsetPosition, behavior := "smooth" }] }
      HandlerResult.mk { b2 with pushedUrls := b2.pushedUrls ++ [targetId] } none

/-! ## Auxiliary definitions for the proofs and concrete pages -/

/-- The timers one stagger loop registers: for the child at position `i` of
`children`, counted from `index`, the callback `outer child` due at
`now + (index + i) * step`. -/
def staggerTimers (now step : Nat) (outer : ElemId → TimerCallback) :
    Nat → List ElemId → List Timer
  | _, [] => []
  | index, x :: xs =>
    { due := now + index * step, callback := outer x } ::
      staggerTimers now step outer (index + 1) xs

/-- The non-empty pieces of `name.split(' ')`. -/
def nameWords (name : JSString) : List JSString :=
  (split 32 name).filter fun word => decide (word.length > 0)

/-- Upper-casing of the ASCII letters, for concrete runs. -/
def asciiUpper (s : JSString) : JSString :=
  s.map fun c => if 97 ≤ c ∧ c ≤ 122 then c - 32 else c

/-- The state the coordinator is in after `events`, starting right after
`optimizeScrollPerformance()`. -/
def reached (y h : ℚ) (header : Option HeaderTransform) (events : List BrowserEvent) :
    ScrollCoordinator :=
  events.foldl dispatch (optimizeScrollPerformance y h header)

/-- A page whose element 5 is a skills-grid with the skill tags 6 and 7. -/
def gridPage : Page :=
  freshPage 0 (fun g => if g = 5 then [6, 7] else []) (fun _ => [])
    (fun e => if e = 5 then ["skills-grid"] else [])

/-- The grid of `gridPage` is observed and reported as intersecting once. -/
def revealedOnce : Page :=
  deliver (setupScrollAnimations [5] gridPage) [{ target := 5, isIntersecting := true }]

/-- After `revealedOnce` the grid leaves the viewport and enters it again. -/
def revealedAgain : Page :=
  deliver (deliver revealedOnce [{ target := 5, isIntersecting := false }])
    [{ target := 5, isIntersecting := true }]

/-- A page at time 400 with a skills-grid 7 (tags 11, 12, 13, 14) and a
services-grid 5 (cards 21, 22, 23), no timer registered. -/
def twoGridPage : Page :=
  freshPage 400 (fun g => if g = 7 then [11, 12, 13, 14] else [])
    (fun g => if g = 5 then [21, 22, 23] else [])
    (fun e => if e = 7 then ["skills-grid"] else if e = 5 then ["services-grid"] else [])

/-- A page at time 400 with a skills-grid 7 of exactly three tags (11, 12,
13) and a services-grid 5 (cards 21, 22), no timer registered. -/
def threeTagPage : Page :=
  freshPage 400 (fun g => if g = 7 then [11, 12, 13] else [])
    (fun g => if g = 5 then [21, 22] else [])
    (fun e => if e = 7 then ["skills-grid"] else if e = 5 then ["services-grid"] else [])

/-- A document in which no element has an id, as it answers `querySelector`
for the hrefs of hash links: the selector `#` (a hash without a name) does not
parse, which `querySelector` reports by throwing a `SyntaxError`; a selector
`#name` parses and finds nothing. -/
def bareHashDocument : NavDocument :=
  { querySelector := fun selector =>
      if selector = [35] then Except.error (JSError.syntaxError "'#' is not a valid selector")
      else Except.ok none
    boundingClientRect := fun _ => { top := 0 } }

/-- A document whose element 3 has the id `about` and lies 900 px below the
top of the viewport. -/
def aboutDocument : NavDocument :=
  { querySelector := fun selector =>
      if selector = [35, 97, 98, 111, 117, 116] then Except.ok (some 3) else Except.ok none
    boundingClientRect := fun _ => { top := 900 } }

/-! ## Lemmas on the throttle -/

lemma requestTick_of_idle (s : ScrollCoordinator) (h : Idle s) :
    FrameScheduled (requestTick s) := by
  obtain ⟨ht, hp⟩ := h
  simp [requestTick, FrameScheduled, ht, hp]

lemma requestTick_of_scheduled (s : ScrollCoordinator) (h : FrameScheduled s) :
    requestTick s = s := by
  obtain ⟨ht, _⟩ := h
  simp [requestTick, ht]

lemma frame_of_scheduled (s : ScrollCoordinator) (h : FrameScheduled s) :
    Idle (dispatch s BrowserEvent.animationFrame) ∧
      (dispatch s BrowserEvent.animationFrame).updates = s.updates + 1 := by
  obtain ⟨_, hp⟩ := h
  simp [dispatch, hp, runFrameCallbacks, updateScrollPosition, Idle]

lemma frame_of_idle (s : ScrollCoordinator) (h : Idle s) :
    dispatch s BrowserEvent.animationFrame = s := by
  obtain ⟨_, hp⟩ := h
  cases s
  simp_all [dispatch, runFrameCallbacks]

lemma idle_or_scheduled_dispatch (s : ScrollCoordinator) (e : BrowserEvent)
    (h : Idle s ∨ FrameScheduled s) :
    Idle (dispatch s e) ∨ FrameScheduled (dispatch s e) := by
  cases e with
  | scroll y =>
    rcases h with h | h
    · right
      exact requestTick_of_idle _ ⟨h.1, h.2⟩
    · right
      have h' : FrameScheduled { s with pageYOffset := y } := ⟨h.1, h.2⟩
      show FrameScheduled (requestTick { s with pageYOffset := y })
      rw [requestTick_of_scheduled _ h']
      exact h'
  | resize hh =>
    rcases h with h | h
    · left; exact ⟨h.1, h.2⟩
    · right; exact ⟨h.1, h.2⟩
  | animationFrame =>
    rcases h with h | h
    · left; rw [frame_of_idle s h]; exact h
    · left; exact (frame_of_scheduled s h).1

lemma idle_or_scheduled_foldl (events : List BrowserEvent) (s : ScrollCoordinator)
    (h : Idle s ∨ FrameScheduled s) :
    Idle (events.foldl dispatch s) ∨ FrameScheduled (events.foldl dispatch s) := by
  induction events generalizing s with
  | nil => simpa using h
  | cons e es ih => exact ih _ (idle_or_scheduled_dispatch s e h)

lemma scrolls_of_scheduled (ys : List ℚ) (s : ScrollCoordinator) (h : FrameScheduled s) :
    FrameScheduled ((ys.map BrowserEvent.scroll).foldl dispatch s) ∧
      ((ys.map BrowserEvent.scroll).foldl dispatch s).updates = s.updates := by
  induction ys generalizing s with
  | nil => exact ⟨h, rfl⟩
  | cons y ys ih =>
    have h' : FrameScheduled { s with pageYOffset := y } := ⟨h.1, h.2⟩
    have hstep : dispatch s (BrowserEvent.scroll y) = { s with pageYOffset := y } :=
      requestTick_of_scheduled _ h'
    simp only [List.map_cons, List.foldl_cons, hstep]
    exact ih _ h'


/-! ## Lemmas on the event loop -/

lemma nextTimer_eq_none (ts : List Timer) : nextTimer ts = none ↔ ts = [] := by
  cases ts with
  | nil => simp [nextTimer]
  | cons t ts =>
    simp only [nextTimer]
    cases nextTimer ts with
    | none => simp
    | some u => by_cases h : t.due ≤ u.due <;> simp [h]

lemma nextTimer_mem (ts : List Timer) (t : Timer) (h : nextTimer ts = some t) : t ∈ ts := by
  induction ts generalizing t with
  | nil => simp [nextTimer] at h
  | cons a ts ih =>
    simp only [nextTimer] at h
    cases hn : nextTimer ts with
    | none =>
      rw [hn] at h
      simp only [Option.some.injEq] at h
      simp [h]
    | some u =>
      rw [hn] at h
      by_cases hle : a.due ≤ u.due
      · simp only [hle, if_true, Option.some.injEq] at h
        simp [h]
      · simp only [hle, if_false, Option.some.injEq] at h
        subst h
        exact List.mem_cons_of_mem _ (ih u hn)

lemma nextTimer_le (ts : List Timer) (t : Timer) (h : nextTimer ts = some t) :
    ∀ u ∈ ts, t.due ≤ u.due := by
  induction ts generalizing t with
  | nil => simp
  | cons a ts ih =>
    simp only [nextTimer] at h
    cases hn : nextTimer ts with
    | none =>
      rw [hn] at h
      simp only [Option.some.injEq] at h
      have : ts = [] := (nextTimer_eq_none ts).1 hn
      subst this
      subst h
      simp
    | some u =>
      rw [hn] at h
      have hu := ih u hn
      by_cases hle : a.due ≤ u.due
      · simp only [hle, if_true, Option.some.injEq] at h
        subst h
        intro v hv
        rcases List.mem_cons.1 hv with rfl | hv
        · exact le_rfl
        · exact le_trans hle (hu v hv)
      · simp only [hle, if_false, Option.some.injEq] at h
        subst h
        intro v hv
        rcases List.mem_cons.1 hv with rfl | hv
        · exact le_of_lt (not_le.1 hle)
        · exact hu v hv

lemma pendingWork_cons (t : Timer) (ts : List Timer) :
    pendingWork (t :: ts) = t.callback.work + pendingWork ts := by
  simp [pendingWork]

lemma pendingWork_perm {l₁ l₂ : List Timer} (h : l₁.Perm l₂) :
    pendingWork l₁ = pendingWork l₂ :=
  (h.map _).sum_eq

lemma pendingWork_append (l₁ l₂ : List Timer) :
    pendingWork (l₁ ++ l₂) = pendingWork l₁ + pendingWork l₂ := by
  simp [pendingWork]

lemma work_pos (c : TimerCallback) : 0 < c.work := by
  cases c <;> simp [TimerCallback.work]

lemma pendingWork_eq_zero (ts : List Timer) (h : pendingWork ts = 0) : ts = [] := by
  cases ts with
  | nil => rfl
  | cons t ts =>
    have := work_pos t.callback
    rw [pendingWork_cons] at h
    omega

lemma fireNext_of_next (p : Page) (t : Timer) (h : nextTimer p.timers = some t) :
    fireNext p =
      some (runCallback { p with now := max p.now t.due, timers := p.timers.erase t }
        t.callback) := by
  simp [fireNext, h]

lemma fireNext_eq_none (p : Page) : fireNext p = none ↔ p.timers = [] := by
  rw [← nextTimer_eq_none]
  unfold fireNext
  cases nextTimer p.timers <;> simp

lemma runCallback_now (p : Page) (c : TimerCallback) : (runCallback p c).now = p.now := by
  cases c <;> rfl

lemma runCallback_timers_mem (p : Page) (c : TimerCallback) (t : Timer) (h : t ∈ p.timers) :
    t ∈ (runCallback p c).timers := by
  cases c <;> simp [runCallback, setTimeout, writeStyle, h]

lemma promised_congr (now now' : Nat) (t : Timer) (h : max now' t.due = max now t.due) :
    t.promised now' = t.promised now := by
  simp [Timer.promised, Timer.fireTime, h]

lemma fireNext_spec (p q : Page) (h : fireNext p = some q) :
    q.forecast.Perm p.forecast ∧ pendingWork q.timers + 1 = pendingWork p.timers ∧
      p.now ≤ q.now := by
  cases hn : nextTimer p.timers with
  | none =>
    rw [(fireNext_eq_none p).2 ((nextTimer_eq_none _).1 hn)] at h
    exact absurd h (by simp)
  | some t =>
    rw [fireNext_of_next p t hn] at h
    simp only [Option.some.injEq] at h
    have hmem := nextTimer_mem _ _ hn
    have hmin := nextTimer_le _ _ hn
    have hperm : p.timers.Perm (t :: p.timers.erase t) := List.perm_cons_erase hmem
    have hwork := pendingWork_perm hperm
    rw [pendingWork_cons] at hwork
    have hrest : (p.timers.erase t).flatMap (Timer.promised (max p.now t.due)) =
        (p.timers.erase t).flatMap (Timer.promised p.now) := by
      refine List.flatMap_congr fun u hu => promised_congr _ _ u ?_
      have := hmin u (List.mem_of_mem_erase hu)
      omega
    have hfore : p.forecast.Perm
        (p.trace ++ (t.promised p.now ++ (p.timers.erase t).flatMap (Timer.promised p.now))) := by
      unfold Page.forecast
      refine List.Perm.append_left _ ?_
      simpa [List.flatMap_cons] using hperm.flatMap_right (Timer.promised p.now)
    obtain ⟨due, cb⟩ := t
    subst h
    refine ⟨?_, ?_, ?_⟩
    · refine List.Perm.trans ?_ hfore.symm
      cases cb with
      | hideTag tag =>
        simp only [Page.forecast, runCallback, setTimeout, writeStyle, Timer.promised,
          Timer.fireTime, List.flatMap_append, List.flatMap_cons, List.flatMap_nil,
          List.append_nil, List.append_assoc, List.singleton_append, List.cons_append,
          List.nil_append, hrest, Nat.le_add_right, max_eq_right]
        refine List.Perm.append_left _ (List.Perm.cons _ ?_)
        exact (List.perm_append_comm).trans (by simp)
      | showTag tag =>
        simp only [Page.forecast, runCallback, writeStyle, Timer.promised, Timer.fireTime,
          List.append_assoc, List.singleton_append, hrest]
        exact List.Perm.refl _
      | hideCard card =>
        simp only [Page.forecast, runCallback, setTimeout, writeStyle, Timer.promised,
          Timer.fireTime, List.flatMap_append, List.flatMap_cons, List.flatMap_nil,
          List.append_nil, List.append_assoc, List.singleton_append, List.cons_append,
          List.nil_append, hrest, Nat.le_add_right, max_eq_right]
        refine List.Perm.append_left _ (List.Perm.cons _ ?_)
        exact (List.perm_append_comm).trans (by simp)
      | showCard card =>
        simp only [Page.forecast, runCallback, writeStyle, Timer.promised, Timer.fireTime,
          List.append_assoc, List.singleton_append, hrest]
        exact List.Perm.refl _
    · rw [hwork]
      cases cb <;>
        simp [runCallback, setTimeout, writeStyle, pendingWork_append, pendingWork_cons,
          TimerCallback.work, pendingWork] <;> omega
    · rw [runCallback_now]
      exact le_max_left _ _

lemma runTimers_of_none (k : Nat) (p : Page) (h : fireNext p = none) : runTimers k p = p := by
  cases k with
  | zero => rfl
  | succ k => simp [runTimers, h]

lemma runTimers_succ_of_some (k : Nat) (p q : Page) (h : fireNext p = some q) :
    runTimers (k + 1) p = runTimers k q := by
  simp [runTimers, h]

lemma runTimers_add (a b : Nat) (p : Page) :
    runTimers (a + b) p = runTimers b (runTimers a p) := by
  induction a generalizing p with
  | zero => simp [runTimers]
  | succ a ih =>
    cases hf : fireNext p with
    | none => rw [runTimers_of_none _ p hf, runTimers_of_none _ p hf, runTimers_of_none _ p hf]
    | some q =>
      have e : a + 1 + b = (a + b) + 1 := by omega
      rw [e, runTimers_succ_of_some _ p q hf, runTimers_succ_of_some _ p q hf, ih]

lemma runTimers_step (k : Nat) (p : Page) (t : Timer)
    (h : nextTimer (runTimers k p).timers = some t) :
    runTimers (k + 1) p =
      runCallback { runTimers k p with
        now := max (runTimers k p).now t.due, timers := (runTimers k p).timers.erase t }
        t.callback := by
  rw [runTimers_add k 1 p]
  simp [runTimers, fireNext_of_next _ t h]

lemma now_le_runTimers (k : Nat) (p : Page) : p.now ≤ (runTimers k p).now := by
  induction k generalizing p with
  | zero => exact le_rfl
  | succ k ih =>
    cases hf : fireNext p with
    | none => rw [runTimers_of_none _ p hf]
    | some q =>
      rw [runTimers_succ_of_some _ p q hf]
      exact le_trans (fireNext_spec p q hf).2.2 (ih q)

lemma runTimers_now_mono (a b : Nat) (p : Page) (h : a ≤ b) :
    (runTimers a p).now ≤ (runTimers b p).now := by
  obtain ⟨c, rfl⟩ := Nat.exists_eq_add_of_le h
  rw [runTimers_add]
  exact now_le_runTimers c _

lemma runTimers_spec (fuel : Nat) (p : Page) (hfuel : pendingWork p.timers ≤ fuel) :
    (runTimers fuel p).timers = [] ∧ (runTimers fuel p).trace.Perm p.forecast := by
  induction fuel generalizing p with
  | zero =>
    have hnil : p.timers = [] := pendingWork_eq_zero _ (by omega)
    simp [runTimers, hnil, Page.forecast]
  | succ n ih =>
    cases hf : fireNext p with
    | none =>
      have hnil : p.timers = [] := (fireNext_eq_none p).1 hf
      rw [runTimers_of_none _ p hf]
      simp [hnil, Page.forecast]
    | some q =>
      obtain ⟨hperm, hwork, _⟩ := fireNext_spec p q hf
      obtain ⟨h1, h2⟩ := ih q (by omega)
      rw [runTimers_succ_of_some _ p q hf]
      exact ⟨h1, h2.trans hperm⟩

lemma fireNext_keeps (p q : Page) (u t : Timer) (hnext : nextTimer p.timers = some u)
    (hf : fireNext p = some q) (ht : t ∈ p.timers) (hut : u ≠ t) :
    t ∈ q.timers ∧ q.now = max p.now u.due := by
  rw [fireNext_of_next p u hnext] at hf
  simp only [Option.some.injEq] at hf
  subst hf
  refine ⟨runCallback_timers_mem _ _ _ ?_, runCallback_now _ _⟩
  exact (List.mem_erase_of_ne (fun e => hut e.symm)).2 ht

/-- Every registered timer is run by the event loop, at its due time or, if
that has passed, at once. -/
lemma timer_fires (n : Nat) (p : Page) (hn : pendingWork p.timers ≤ n) (t : Timer)
    (ht : t ∈ p.timers) :
    ∃ k, nextTimer (runTimers k p).timers = some t ∧
      max (runTimers k p).now t.due = max p.now t.due := by
  induction n generalizing p with
  | zero =>
    have hnil := pendingWork_eq_zero p.timers (by omega)
    rw [hnil] at ht
    simp at ht
  | succ n ih =>
    cases hnext : nextTimer p.timers with
    | none =>
      rw [(nextTimer_eq_none _).1 hnext] at ht
      simp at ht
    | some u =>
      by_cases hut : u = t
      · subst hut
        exact ⟨0, hnext, rfl⟩
      · cases hf : fireNext p with
        | none =>
          rw [(fireNext_eq_none p).1 hf] at ht
          simp at ht
        | some q =>
          obtain ⟨_, hwork, _⟩ := fireNext_spec p q hf
          obtain ⟨hmem, hnow⟩ := fireNext_keeps p q u t hnext hf ht hut
          obtain ⟨k, hk1, hk2⟩ := ih q (by omega) hmem
          refine ⟨k + 1, ?_, ?_⟩
          · rw [runTimers_succ_of_some _ p q hf]
            exact hk1
          · rw [runTimers_succ_of_some _ p q hf, hk2, hnow]
            have := nextTimer_le _ _ hnext t ht
            omega

lemma runsAt_of_next (q : Page) (k : Nat) (t : Timer)
    (h : nextTimer (runTimers k q).timers = some t) :
    runsAt q k t.callback (max (runTimers k q).now t.due) = true := by
  simp [runsAt, h]

lemma runsAt_now (q : Page) (k : Nat) (c : TimerCallback) (time : Nat)
    (h : runsAt q k c time = true) : (runTimers (k + 1) q).now = time := by
  unfold runsAt at h
  cases hn : nextTimer (runTimers k q).timers with
  | none => simp [hn] at h
  | some t =>
    simp only [hn, decide_eq_true_eq] at h
    rw [runTimers_step k q t hn, runCallback_now]
    exact h.2

/-- A callback that runs at an earlier clock reading runs earlier. -/
lemma runsAt_lt (q : Page) (k k' : Nat) (c c' : TimerCallback) (time time' : Nat)
    (h : runsAt q k c time = true) (h' : runsAt q k' c' time' = true) (hlt : time < time') :
    k < k' := by
  by_contra hle
  have hmono := runTimers_now_mono (k' + 1) (k + 1) q (by omega)
  rw [runsAt_now q k c time h, runsAt_now q k' c' time' h'] at hmono
  omega

/-! ## Lemmas on the stagger schedules -/

lemma forEachFrom_setTimeout (step : Nat) (outer : ElemId → TimerCallback)
    (index : Nat) (xs : List ElemId) (p : Page) :
    forEachFrom (fun x i q => setTimeout (outer x) (i * step) q) index xs p =
      { p with timers := p.timers ++ staggerTimers p.now step outer index xs } := by
  induction xs generalizing index p with
  | nil => simp [forEachFrom, staggerTimers]
  | cons x xs ih =>
    simp only [forEachFrom, staggerTimers]
    rw [ih]
    simp [setTimeout]

lemma mem_staggerTimers (now step : Nat) (outer : ElemId → TimerCallback) (index : Nat)
    (xs : List ElemId) (i : Nat) (x : ElemId) (hi : xs[i]? = some x) :
    { due := now + (index + i) * step, callback := outer x } ∈
      staggerTimers now step outer index xs := by
  induction xs generalizing index i with
  | nil => simp at hi
  | cons y ys ih =>
    cases i with
    | zero =>
      simp only [List.getElem?_cons_zero, Option.some.injEq] at hi
      subst hi
      simp [staggerTimers]
    | succ j =>
      simp only [List.getElem?_cons_succ] at hi
      have h := ih (index + 1) j hi
      have e : index + 1 + j = index + (j + 1) := by omega
      rw [e] at h
      simp [staggerTimers, h]

lemma animateSkillTags_eq (p : Page) (skillsGrid : ElemId) :
    animateSkillTags skillsGrid p =
      { p with timers := p.timers ++
          staggerTimers p.now 50 TimerCallback.hideTag 0 (p.skillTags skillsGrid) } :=
  forEachFrom_setTimeout 50 TimerCallback.hideTag 0 _ p

lemma staggerTimers_hideTag_work (now : Nat) (index : Nat) (xs : List ElemId) :
    pendingWork (staggerTimers now 50 TimerCallback.hideTag index xs) = 2 * xs.length := by
  induction xs generalizing index with
  | nil => simp [staggerTimers, pendingWork]
  | cons x xs ih =>
    simp only [staggerTimers, pendingWork_cons, ih (index + 1), TimerCallback.work,
      List.length_cons]
    omega

lemma staggerTimers_hideTag_promised (now : Nat) (index : Nat) (xs : List ElemId) :
    (staggerTimers now 50 TimerCallback.hideTag index xs).flatMap (Timer.promised now) =
      staggerSchedule now 50 50 tagHidden tagVisible index xs := by
  induction xs generalizing index with
  | nil => simp [staggerTimers, staggerSchedule]
  | cons x xs ih =>
    simp [staggerTimers, staggerSchedule, Timer.promised, Timer.fireTime, ih]

/-- Running the event loop after `animateSkillTags` drains the timers; the style
assignments performed are those the timers pending before the call stand for
and, in addition, exactly the tag schedule. -/
lemma animateSkillTags_run (p : Page) (skillsGrid : ElemId) (fuel : Nat)
    (hfuel : pendingWork p.timers + 2 * (p.skillTags skillsGrid).length ≤ fuel) :
    (runTimers fuel (animateSkillTags skillsGrid p)).timers = [] ∧
      (runTimers fuel (animateSkillTags skillsGrid p)).trace.Perm
        ((runTimers fuel p).trace ++
          staggerSchedule p.now 50 50 tagHidden tagVisible 0 (p.skillTags skillsGrid)) := by
  have hwork : pendingWork (animateSkillTags skillsGrid p).timers ≤ fuel := by
    rw [animateSkillTags_eq]
    simp only [pendingWork_append, staggerTimers_hideTag_work]
    exact hfuel
  obtain ⟨h1, h2⟩ := runTimers_spec fuel _ hwork
  obtain ⟨_, h3⟩ := runTimers_spec fuel p (by omega)
  refine ⟨h1, h2.trans ?_⟩
  have hfore : (animateSkillTags skillsGrid p).forecast =
      p.forecast ++ staggerSchedule p.now 50 50 tagHidden tagVisible 0 (p.skillTags skillsGrid) := by
    rw [animateSkillTags_eq]
    simp only [Page.forecast, List.flatMap_append, List.append_assoc,
      staggerTimers_hideTag_promised]
  rw [hfore]
  exact h3.symm.append_right _

/-- A registered outer tag callback runs when it is due, leaving the tag
with the hidden style, and the inner callback it registers runs 50 ms later,
leaving opacity 1 and no shift. -/
lemma hideTag_then_showTag (q : Page) (due : Nat) (tag : ElemId)
    (hmem : { due := due, callback := TimerCallback.hideTag tag } ∈ q.timers)
    (hdue : q.now ≤ due) :
    ∃ k₁ k₂, k₁ < k₂ ∧
      runsAt q k₁ (TimerCallback.hideTag tag) due = true ∧
      (runTimers (k₁ + 1) q).style tag =
        { opacity := "0", transform := "translateY(20px)", transition := "all 0.3s ease" } ∧
      runsAt q k₂ (TimerCallback.showTag tag) (due + 50) = true ∧
      ((runTimers (k₂ + 1) q).style tag).opacity = "1" ∧
      ((runTimers (k₂ + 1) q).style tag).transform = "translateY(0)" := by
  obtain ⟨k₁, hnext, hmax⟩ := timer_fires _ q le_rfl _ hmem
  simp only at hmax
  have hfire : max (runTimers k₁ q).now due = due := by omega
  have hstep := runTimers_step k₁ q _ hnext
  simp only [hfire] at hstep
  have hruns := runsAt_of_next q k₁ _ hnext
  simp only [hfire] at hruns
  have hmem₂ : { due := due + 50, callback := TimerCallback.showTag tag } ∈
      (runTimers (k₁ + 1) q).timers := by
    rw [hstep]
    simp [runCallback, setTimeout, writeStyle]
  have hnow₂ : (runTimers (k₁ + 1) q).now = due := by
    rw [hstep, runCallback_now]
  obtain ⟨k, hnext₂, hmax₂⟩ := timer_fires _ (runTimers (k₁ + 1) q) le_rfl _ hmem₂
  simp only [hnow₂] at hmax₂
  rw [← runTimers_add] at hnext₂ hmax₂
  have hfire₂ : max (runTimers (k₁ + 1 + k) q).now (due + 50) = due + 50 := by omega
  have hstep₂ := runTimers_step (k₁ + 1 + k) q _ hnext₂
  have hruns₂ := runsAt_of_next q (k₁ + 1 + k) _ hnext₂
  simp only [hfire₂] at hruns₂
  refine ⟨k₁, k₁ + 1 + k, by omega, hruns, ?_, hruns₂, ?_, ?_⟩
  · rw [hstep]
    simp [runCallback, setTimeout, writeStyle, tagHidden, InlineStyle.assign]
  · rw [hstep₂]
    simp [runCallback, writeStyle, tagVisible, InlineStyle.assign]
  · rw [hstep₂]
    simp [runCallback, writeStyle, tagVisible, InlineStyle.assign]

/-- The child at index `i` has its outer callback registered by `animateSkillTags`,
due `i * 50` ms after the call. -/
lemma animateSkillTags_registers (p : Page) (skillsGrid : ElemId) (i : Nat) (tag : ElemId)
    (hi : (p.skillTags skillsGrid)[i]? = some tag) :
    { due := p.now + i * 50, callback := TimerCallback.hideTag tag } ∈
      (animateSkillTags skillsGrid p).timers := by
  rw [animateSkillTags_eq]
  have := mem_staggerTimers p.now 50 TimerCallback.hideTag 0 _ i tag hi
  rw [Nat.zero_add] at this
  simp [this]

lemma animateServiceCards_eq (p : Page) (servicesGrid : ElemId) :
    animateServiceCards servicesGrid p =
      { p with timers := p.timers ++
          staggerTimers p.now 100 TimerCallback.hideCard 0 (p.serviceCards servicesGrid) } :=
  forEachFrom_setTimeout 100 TimerCallback.hideCard 0 _ p

lemma staggerTimers_hideCard_work (now : Nat) (index : Nat) (xs : List ElemId) :
    pendingWork (staggerTimers now 100 TimerCallback.hideCard index xs) = 2 * xs.length := by
  induction xs generalizing index with
  | nil => simp [staggerTimers, pendingWork]
  | cons x xs ih =>
    simp only [staggerTimers, pendingWork_cons, ih (index + 1), TimerCallback.work,
      List.length_cons]
    omega

lemma staggerTimers_hideCard_promised (now : Nat) (index : Nat) (xs : List ElemId) :
    (staggerTimers now 100 TimerCallback.hideCard index xs).flatMap (Timer.promised now) =
      staggerSchedule now 100 100 cardHidden cardVisible index xs := by
  induction xs generalizing index with
  | nil => simp [staggerTimers, staggerSchedule]
  | cons x xs ih =>
    simp [staggerTimers, staggerSchedule, Timer.promised, Timer.fireTime, ih]

/-- Running the event loop after `animateServiceCards` drains the timers; the style
assignments performed are those the timers pending before the call stand for
and, in addition, exactly the card schedule. -/
lemma animateServiceCards_run (p : Page) (servicesGrid : ElemId) (fuel : Nat)
    (hfuel : pendingWork p.timers + 2 * (p.serviceCards servicesGrid).length ≤ fuel) :
    (runTimers fuel (animateServiceCards servicesGrid p)).timers = [] ∧
      (runTimers fuel (animateServiceCards servicesGrid p)).trace.Perm
        ((runTimers fuel p).trace ++
          staggerSchedule p.now 100 100 cardHidden cardVisible 0 (p.serviceCards servicesGrid)) := by
  have hwork : pendingWork (animateServiceCards servicesGrid p).timers ≤ fuel := by
    rw [animateServiceCards_eq]
    simp only [pendingWork_append, staggerTimers_hideCard_work]
    exact hfuel
  obtain ⟨h1, h2⟩ := runTimers_spec fuel _ hwork
  obtain ⟨_, h3⟩ := runTimers_spec fuel p (by omega)
  refine ⟨h1, h2.trans ?_⟩
  have hfore : (animateServiceCards servicesGrid p).forecast =
      p.forecast ++ staggerSchedule p.now 100 100 cardHidden cardVisible 0 (p.serviceCards servicesGrid) := by
    rw [animateServiceCards_eq]
    simp only [Page.forecast, List.flatMap_append, List.append_assoc,
      staggerTimers_hideCard_promised]
  rw [hfore]
  exact h3.symm.append_right _

/-- A registered outer card callback runs when it is due, leaving the card
with the hidden style, and the inner callback it registers runs 100 ms later,
leaving opacity 1 and no shift. -/
lemma hideCard_then_showCard (q : Page) (due : Nat) (card : ElemId)
    (hmem : { due := due, callback := TimerCallback.hideCard card } ∈ q.timers)
    (hdue : q.now ≤ due) :
    ∃ k₁ k₂, k₁ < k₂ ∧
      runsAt q k₁ (TimerCallback.hideCard card) due = true ∧
      (runTimers (k₁ + 1) q).style card =
        { opacity := "0", transform := "translateY(30px)", transition := "all 0.4s ease" } ∧
      runsAt q k₂ (TimerCallback.showCard card) (due + 100) = true ∧
      ((runTimers (k₂ + 1) q).style card).opacity = "1" ∧
      ((runTimers (k₂ + 1) q).style card).transform = "translateY(0)" := by
  obtain ⟨k₁, hnext, hmax⟩ := timer_fires _ q le_rfl _ hmem
  simp only at hmax
  have hfire : max (runTimers k₁ q).now due = due := by omega
  have hstep := runTimers_step k₁ q _ hnext
  simp only [hfire] at hstep
  have hruns := runsAt_of_next q k₁ _ hnext
  simp only [hfire] at hruns
  have hmem₂ : { due := due + 100, callback := TimerCallback.showCard card } ∈
      (runTimers (k₁ + 1) q).timers := by
    rw [hstep]
    simp [runCallback, setTimeout, writeStyle]
  have hnow₂ : (runTimers (k₁ + 1) q).now = due := by
    rw [hstep, runCallback_now]
  obtain ⟨k, hnext₂, hmax₂⟩ := timer_fires _ (runTimers (k₁ + 1) q) le_rfl _ hmem₂
  simp only [hnow₂] at hmax₂
  rw [← runTimers_add] at hnext₂ hmax₂
  have hfire₂ : max (runTimers (k₁ + 1 + k) q).now (due + 100) = due + 100 := by omega
  have hstep₂ := runTimers_step (k₁ + 1 + k) q _ hnext₂
  have hruns₂ := runsAt_of_next q (k₁ + 1 + k) _ hnext₂
  simp only [hfire₂] at hruns₂
  refine ⟨k₁, k₁ + 1 + k, by omega, hruns, ?_, hruns₂, ?_, ?_⟩
  · rw [hstep]
    simp [runCallback, setTimeout, writeStyle, cardHidden, InlineStyle.assign]
  · rw [hstep₂]
    simp [runCallback, writeStyle, cardVisible, InlineStyle.assign]
  · rw [hstep₂]
    simp [runCallback, writeStyle, cardVisible, InlineStyle.assign]

/-- The child at index `i` has its outer callback registered by `animateServiceCards`,
due `i * 100` ms after the call. -/
lemma animateServiceCards_registers (p : Page) (servicesGrid : ElemId) (i : Nat) (card : ElemId)
    (hi : (p.serviceCards servicesGrid)[i]? = some card) :
    { due := p.now + i * 100, callback := TimerCallback.hideCard card } ∈
      (animateServiceCards servicesGrid p).timers := by
  rw [animateServiceCards_eq]
  have := mem_staggerTimers p.now 100 TimerCallback.hideCard 0 _ i card hi
  rw [Nat.zero_add] at this
  simp [this]

/-! ## Stagger schedules: the claims -/

/-- C5. `animateSkillTags` called at time `p.now` on any page `p`, for a grid whose
`.skill-tag` children in document order are `p.skillTags skillsGrid`.
(1) With enough fuel the event loop runs every timer, and the style
assignments it has then performed are those it would have performed without
the call plus, for each child `i`, the hidden style (opacity 0,
translateY(20px), transition all 0.3s ease) at `p.now + i * 50` and the
visible style (opacity 1, translateY(0)) at `p.now + i * 50 + 50`.
(2) For the child at index `i`: the event loop runs its outer callback when
the clock reads `p.now + i * 50`, and right afterwards the inline style of
the child is opacity 0, translateY(20px), transition all 0.3s ease; later it
runs its inner callback when the clock reads `p.now + i * 50 + 50`, and
right afterwards the inline style of the child has opacity 1 and transform
translateY(0).
(3) The inner callback of child `i` at its time runs before the inner
callback of child `i + 1` at its time, which is strictly later. -/
theorem animateSkillTags_stagger (p : Page) (skillsGrid : ElemId) :
    (∀ fuel, pendingWork p.timers + 2 * (p.skillTags skillsGrid).length ≤ fuel →
      (runTimers fuel (animateSkillTags skillsGrid p)).timers = [] ∧
      (runTimers fuel (animateSkillTags skillsGrid p)).trace.Perm
        ((runTimers fuel p).trace ++
          staggerSchedule p.now 50 50
            [(StyleProp.opacity, "0"), (StyleProp.transform, "translateY(20px)"),
           (StyleProp.transition, "all 0.3s ease")]
            [(StyleProp.opacity, "1"), (StyleProp.transform, "translateY(0)")] 0
            (p.skillTags skillsGrid))) ∧
    (∀ i tag, (p.skillTags skillsGrid)[i]? = some tag →
      ∃ k₁ k₂, k₁ < k₂ ∧
        runsAt (animateSkillTags skillsGrid p) k₁ (TimerCallback.hideTag tag) (p.now + i * 50) = true ∧
        (runTimers (k₁ + 1) (animateSkillTags skillsGrid p)).style tag =
          { opacity := "0", transform := "translateY(20px)",
            transition := "all 0.3s ease" } ∧
        runsAt (animateSkillTags skillsGrid p) k₂ (TimerCallback.showTag tag) (p.now + i * 50 + 50) = true ∧
        ((runTimers (k₂ + 1) (animateSkillTags skillsGrid p)).style tag).opacity = "1" ∧
        ((runTimers (k₂ + 1) (animateSkillTags skillsGrid p)).style tag).transform = "translateY(0)") ∧
    (∀ i tag next, (p.skillTags skillsGrid)[i]? = some tag →
      (p.skillTags skillsGrid)[i + 1]? = some next →
      p.now + i * 50 + 50 < p.now + (i + 1) * 50 + 50 ∧
      ∀ k k', runsAt (animateSkillTags skillsGrid p) k (TimerCallback.showTag tag) (p.now + i * 50 + 50) = true →
        runsAt (animateSkillTags skillsGrid p) k' (TimerCallback.showTag next)
          (p.now + (i + 1) * 50 + 50) = true →
        k < k') := by
  refine ⟨fun fuel hfuel => animateSkillTags_run p skillsGrid fuel hfuel, ?_, ?_⟩
  · intro i tag hi
    have hq : (animateSkillTags skillsGrid p).now = p.now := by rw [animateSkillTags_eq]
    exact hideTag_then_showTag _ _ _ (animateSkillTags_registers p skillsGrid i tag hi)
      (by rw [hq]; omega)
  · intro i tag next _ _
    refine ⟨by omega, fun k k' h h' => ?_⟩
    exact runsAt_lt _ k k' _ _ _ _ h h' (by omega)

/-- C6. `animateServiceCards` called at time `p.now` on any page `p`, for a grid whose
`.service-card` children in document order are `p.serviceCards servicesGrid`.
(1) With enough fuel the event loop runs every timer, and the style
assignments it has then performed are those it would have performed without
the call plus, for each child `i`, the hidden style (opacity 0,
translateY(30px), transition all 0.4s ease) at `p.now + i * 100` and the
visible style (opacity 1, translateY(0)) at `p.now + i * 100 + 100`.
(2) For the child at index `i`: the event loop runs its outer callback when
the clock reads `p.now + i * 100`, and right afterwards the inline style of
the child is opacity 0, translateY(30px), transition all 0.4s ease; later it
runs its inner callback when the clock reads `p.now + i * 100 + 100`, and
right afterwards the inline style of the child has opacity 1 and transform
translateY(0).
(3) The inner callback of child `i` at its time runs before the inner
callback of child `i + 1` at its time, which is strictly later. -/
theorem animateServiceCards_stagger (p : Page) (servicesGrid : ElemId) :
    (∀ fuel, pendingWork p.timers + 2 * (p.serviceCards servicesGrid).length ≤ fuel →
      (runTimers fuel (animateServiceCards servicesGrid p)).timers = [] ∧
      (runTimers fuel (animateServiceCards servicesGrid p)).trace.Perm
        ((runTimers fuel p).trace ++
          staggerSchedule p.now 100 100
            [(StyleProp.opacity, "0"), (StyleProp.transform, "translateY(30px)"),
           (StyleProp.transition, "all 0.4s ease")]
            [(StyleProp.opacity, "1"), (StyleProp.transform, "translateY(0)")] 0
            (p.serviceCards servicesGrid))) ∧
    (∀ i card, (p.serviceCards servicesGrid)[i]? = some card →
      ∃ k₁ k₂, k₁ < k₂ ∧
        runsAt (animateServiceCards servicesGrid p) k₁ (TimerCallback.hideCard card) (p.now + i * 100) = true ∧
        (runTimers (k₁ + 1) (animateServiceCards servicesGrid p)).style card =
          { opacity := "0", transform := "translateY(30px)",
            transition := "all 0.4s ease" } ∧
        runsAt (animateServiceCards servicesGrid p) k₂ (TimerCallback.showCard card) (p.now + i * 100 + 100) = true ∧
        ((runTimers (k₂ + 1) (animateServiceCards servicesGrid p)).style card).opacity = "1" ∧
        ((runTimers (k₂ + 1) (animateServiceCards servicesGrid p)).style card).transform = "translateY(0)") ∧
    (∀ i card next, (p.serviceCards servicesGrid)[i]? = some card →
      (p.serviceCards servicesGrid)[i + 1]? = some next →
      p.now + i * 100 + 100 < p.now + (i + 1) * 100 + 100 ∧
      ∀ k k', runsAt (animateServiceCards servicesGrid p) k (TimerCallback.showCard card) (p.now + i * 100 + 100) = true →
        runsAt (animateServiceCards servicesGrid p) k' (TimerCallback.showCard next)
          (p.now + (i + 1) * 100 + 100) = true →
        k < k') := by
  refine ⟨fun fuel hfuel => animateServiceCards_run p servicesGrid fuel hfuel, ?_, ?_⟩
  · intro i card hi
    have hq : (animateServiceCards servicesGrid p).now = p.now := by rw [animateServiceCards_eq]
    exact hideCard_then_showCard _ _ _ (animateServiceCards_registers p servicesGrid i card hi)
      (by rw [hq]; omega)
  · intro i card next _ _
    refine ⟨by omega, fun k k' h h' => ?_⟩
    exact runsAt_lt _ k k' _ _ _ _ h h' (by omega)

/-- C5, for the tag 13 at index 2 of grid 7, when `animateSkillTags` is called
at time 400 right after `animateServiceCards` has registered its timers (both
grids revealed in one batch): hidden at 500, visible at 550. -/
theorem animateSkillTags_stagger_witness :
    ∃ k₁ k₂, k₁ < k₂ ∧
      runsAt (animateSkillTags 7 (animateServiceCards 5 twoGridPage)) k₁
        (TimerCallback.hideTag 13) 500 = true ∧
      (runTimers (k₁ + 1) (animateSkillTags 7 (animateServiceCards 5 twoGridPage))).style 13 =
        { opacity := "0", transform := "translateY(20px)", transition := "all 0.3s ease" } ∧
      runsAt (animateSkillTags 7 (animateServiceCards 5 twoGridPage)) k₂
        (TimerCallback.showTag 13) 550 = true ∧
      ((runTimers (k₂ + 1)
        (animateSkillTags 7 (animateServiceCards 5 twoGridPage))).style 13).opacity = "1" ∧
      ((runTimers (k₂ + 1)
        (animateSkillTags 7 (animateServiceCards 5 twoGridPage))).style 13).transform =
          "translateY(0)" :=
  (animateSkillTags_stagger (animateServiceCards 5 twoGridPage) 7).2.1 2 13 rfl

/-- C6, for the card 22 at index 1 of grid 5, when `animateServiceCards` is
called at time 400 right after `animateSkillTags` has registered its timers:
hidden at 500, visible at 600. -/
theorem animateServiceCards_stagger_witness :
    ∃ k₁ k₂, k₁ < k₂ ∧
      runsAt (animateServiceCards 5 (animateSkillTags 7 twoGridPage)) k₁
        (TimerCallback.hideCard 22) 500 = true ∧
      (runTimers (k₁ + 1) (animateServiceCards 5 (animateSkillTags 7 twoGridPage))).style 22 =
        { opacity := "0", transform := "translateY(30px)", transition := "all 0.4s ease" } ∧
      runsAt (animateServiceCards 5 (animateSkillTags 7 twoGridPage)) k₂
        (TimerCallback.showCard 22) 600 = true ∧
      ((runTimers (k₂ + 1)
        (animateServiceCards 5 (animateSkillTags 7 twoGridPage))).style 22).opacity = "1" ∧
      ((runTimers (k₂ + 1)
        (animateServiceCards 5 (animateSkillTags 7 twoGridPage))).style 22).transform =
          "translateY(0)" :=
  (animateServiceCards_stagger (animateSkillTags 7 twoGridPage) 5).2.1 1 22 rfl

/-- C7, as stated, fails: on a skills-grid with the three tags 1, 2, 3
revealed at time 0 the visible style is not applied at 100, 150 and 200 ms;
the first tag already receives it at 50 ms. -/
theorem three_tags_not_100_150_200 :
    ¬ (timesOf (runTimers 6 (animateSkillTags 0
          (freshPage 0 (fun _ => [1, 2, 3]) (fun _ => []) (fun _ => [])))).trace 1 tagVisible = [100] ∧
       timesOf (runTimers 6 (animateSkillTags 0
          (freshPage 0 (fun _ => [1, 2, 3]) (fun _ => []) (fun _ => [])))).trace 2 tagVisible = [150] ∧
       timesOf (runTimers 6 (animateSkillTags 0
          (freshPage 0 (fun _ => [1, 2, 3]) (fun _ => []) (fun _ => [])))).trace 3 tagVisible = [200]) := by
  decide

/-- C7, amended. `animateSkillTags` called at time `p.now` on any page `p`,
for a skills-grid with exactly three skill-tag children `a`, `b`, `c`.
(1) With enough fuel the event loop runs every timer, and the style
assignments it has then performed are those it would have performed without
the call plus the hidden style at 0, 50, 100 ms and the visible style at 50,
100, 150 ms after the call, for children 0, 1, 2.
(2) The event loop runs the inner callbacks of `a`, `b`, `c` in this order,
when the clock reads `p.now + 50`, `p.now + 100` and `p.now + 150`, and right
after each of them the inline style of that child has opacity 1 and transform
translateY(0). -/
theorem animateSkillTags_three (p : Page) (skillsGrid a b c : ElemId)
    (htags : p.skillTags skillsGrid = [a, b, c]) :
    (∀ fuel, pendingWork p.timers + 6 ≤ fuel →
      (runTimers fuel (animateSkillTags skillsGrid p)).timers = [] ∧
      (runTimers fuel (animateSkillTags skillsGrid p)).trace.Perm
        ((runTimers fuel p).trace ++
          [{ time := p.now, target := a, assigns := tagHidden },
           { time := p.now + 50, target := a, assigns := tagVisible },
           { time := p.now + 50, target := b, assigns := tagHidden },
           { time := p.now + 100, target := b, assigns := tagVisible },
           { time := p.now + 100, target := c, assigns := tagHidden },
           { time := p.now + 150, target := c, assigns := tagVisible }])) ∧
    (∃ k₀ k₁ k₂, k₀ < k₁ ∧ k₁ < k₂ ∧
      runsAt (animateSkillTags skillsGrid p) k₀ (TimerCallback.showTag a) (p.now + 50) = true ∧
      ((runTimers (k₀ + 1) (animateSkillTags skillsGrid p)).style a).opacity = "1" ∧
      ((runTimers (k₀ + 1) (animateSkillTags skillsGrid p)).style a).transform =
        "translateY(0)" ∧
      runsAt (animateSkillTags skillsGrid p) k₁ (TimerCallback.showTag b) (p.now + 100) = true ∧
      ((runTimers (k₁ + 1) (animateSkillTags skillsGrid p)).style b).opacity = "1" ∧
      ((runTimers (k₁ + 1) (animateSkillTags skillsGrid p)).style b).transform =
        "translateY(0)" ∧
      runsAt (animateSkillTags skillsGrid p) k₂ (TimerCallback.showTag c) (p.now + 150) = true ∧
      ((runTimers (k₂ + 1) (animateSkillTags skillsGrid p)).style c).opacity = "1" ∧
      ((runTimers (k₂ + 1) (animateSkillTags skillsGrid p)).style c).transform =
        "translateY(0)") := by
  have hq : (animateSkillTags skillsGrid p).now = p.now := by rw [animateSkillTags_eq]
  have hreg := fun i tag hi => animateSkillTags_registers p skillsGrid i tag hi
  rw [htags] at hreg
  constructor
  · intro fuel hfuel
    have h := animateSkillTags_run p skillsGrid fuel (by rw [htags]; exact hfuel)
    rw [htags] at h
    simpa [staggerSchedule, Nat.add_assoc] using h
  · obtain ⟨_, k₀, _, _, _, ha, hao, hat⟩ :=
      hideTag_then_showTag _ _ _ (hreg 0 a rfl) (by rw [hq]; omega)
    obtain ⟨_, k₁, _, _, _, hb, hbo, hbt⟩ :=
      hideTag_then_showTag _ _ _ (hreg 1 b rfl) (by rw [hq]; omega)
    obtain ⟨_, k₂, _, _, _, hc, hco, hct⟩ :=
      hideTag_then_showTag _ _ _ (hreg 2 c rfl) (by rw [hq]; omega)
    have ea : p.now + 0 * 50 + 50 = p.now + 50 := by omega
    have eb : p.now + 1 * 50 + 50 = p.now + 100 := by omega
    have ec : p.now + 2 * 50 + 50 = p.now + 150 := by omega
    rw [ea] at ha
    rw [eb] at hb
    rw [ec] at hc
    exact ⟨k₀, k₁, k₂, runsAt_lt _ _ _ _ _ _ _ ha hb (by omega),
      runsAt_lt _ _ _ _ _ _ _ hb hc (by omega), ha, hao, hat, hb, hbo, hbt, hc, hco, hct⟩

/-- C7 amended, for the first three tags of a grid revealed at time 400 while
the timers of the services-grid are pending: visible at 450, 500, 550. -/
theorem animateSkillTags_three_witness :
    ∃ k₀ k₁ k₂, k₀ < k₁ ∧ k₁ < k₂ ∧
      runsAt (animateSkillTags 7 (animateServiceCards 5 threeTagPage)) k₀
        (TimerCallback.showTag 11) 450 = true ∧
      ((runTimers (k₀ + 1)
        (animateSkillTags 7 (animateServiceCards 5 threeTagPage))).style 11).opacity = "1" ∧
      ((runTimers (k₀ + 1)
        (animateSkillTags 7 (animateServiceCards 5 threeTagPage))).style 11).transform =
          "translateY(0)" ∧
      runsAt (animateSkillTags 7 (animateServiceCards 5 threeTagPage)) k₁
        (TimerCallback.showTag 12) 500 = true ∧
      ((runTimers (k₁ + 1)
        (animateSkillTags 7 (animateServiceCards 5 threeTagPage))).style 12).opacity = "1" ∧
      ((runTimers (k₁ + 1)
        (animateSkillTags 7 (animateServiceCards 5 threeTagPage))).style 12).transform =
          "translateY(0)" ∧
      runsAt (animateSkillTags 7 (animateServiceCards 5 threeTagPage)) k₂
        (TimerCallback.showTag 13) 550 = true ∧
      ((runTimers (k₂ + 1)
        (animateSkillTags 7 (animateServiceCards 5 threeTagPage))).style 13).opacity = "1" ∧
      ((runTimers (k₂ + 1)
        (animateSkillTags 7 (animateServiceCards 5 threeTagPage))).style 13).transform =
          "translateY(0)" :=
  (animateSkillTags_three (animateServiceCards 5 threeTagPage) 7 11 12 13 rfl).2

/-! ## Lemmas on splitting and trimming -/

lemma IsWord.no_space {w : JSString} (hw : IsWord w) : ∀ c ∈ w, c ≠ 32 := by
  intro c hc e
  have := hw.2 c hc
  rw [e] at this
  exact absurd this (by decide)

lemma split_append_sep (sep : Nat) (w s : JSString) (hw : ∀ c ∈ w, c ≠ sep) :
    split sep (w ++ sep :: s) = w :: split sep s := by
  induction w with
  | nil => simp [split]
  | cons c w ih =>
    have hc : c ≠ sep := hw c (by simp)
    have h := ih (fun d hd => hw d (by simp [hd]))
    simp [split, hc, h]

lemma split_of_no_sep (sep : Nat) (w : JSString) (hw : ∀ c ∈ w, c ≠ sep) :
    split sep w = [w] := by
  induction w with
  | nil => simp [split]
  | cons c w ih =>
    have hc : c ≠ sep := hw c (by simp)
    have h := ih (fun d hd => hw d (by simp [hd]))
    simp [split, hc, h]

lemma nameWords_spaces (k : Nat) (s : JSString) : nameWords (spaces k ++ s) = nameWords s := by
  induction k with
  | zero => simp [spaces]
  | succ k ih =>
    have : spaces (k + 1) ++ s = 32 :: (spaces k ++ s) := by
      simp [spaces, List.replicate_succ]
    rw [this]
    simpa [nameWords, split] using ih

lemma nameWords_word_sep (w s : JSString) (hw : IsWord w) :
    nameWords (w ++ 32 :: s) = w :: nameWords s := by
  have hlen : 0 < w.length := List.length_pos.2 hw.1
  simp [nameWords, split_append_sep 32 w s hw.no_space, hlen]

lemma nameWords_word (w : JSString) (hw : IsWord w) : nameWords w = [w] := by
  have hlen : 0 < w.length := List.length_pos.2 hw.1
  simp [nameWords, split_of_no_sep 32 w hw.no_space, hlen]

lemma nameWords_body (first : JSString) (rest : List (Nat × JSString)) (hfirst : IsWord first)
    (hrest : ∀ gw ∈ rest, IsWord gw.2) :
    nameWords (first ++ rest.flatMap fun gw => spaces (gw.1 + 1) ++ gw.2) =
      first :: rest.map Prod.snd := by
  induction rest generalizing first with
  | nil => simpa using nameWords_word first hfirst
  | cons gw rest ih =>
    have hgw : IsWord gw.2 := hrest gw (by simp)
    have hrest' : ∀ g ∈ rest, IsWord g.2 := fun g hg => hrest g (by simp [hg])
    have e : first ++ (gw :: rest).flatMap (fun gw => spaces (gw.1 + 1) ++ gw.2) =
        first ++ 32 :: (spaces gw.1 ++
          (gw.2 ++ rest.flatMap fun gw => spaces (gw.1 + 1) ++ gw.2)) := by
      simp [spaces, List.replicate_succ]
    rw [e, nameWords_word_sep first _ hfirst, nameWords_spaces, ih gw.2 hgw hrest']
    simp

lemma trimStart_spaces (k : Nat) (s : JSString) : trimStart (spaces k ++ s) = trimStart s := by
  induction k with
  | zero => simp [spaces]
  | succ k ih =>
    have : spaces (k + 1) ++ s = 32 :: (spaces k ++ s) := by
      simp [spaces, List.replicate_succ]
    rw [this]
    have h32 : isWhiteSpace 32 = true := by decide
    simpa [trimStart, List.dropWhile_cons, h32] using ih

lemma trimStart_cons (c : Nat) (s : JSString) (hc : isWhiteSpace c = false) :
    trimStart (c :: s) = c :: s := by
  simp [trimStart, List.dropWhile_cons, hc]

lemma trimEnd_spaces (s : JSString) (k : Nat) : trimEnd (s ++ spaces k) = trimEnd s := by
  have h := trimStart_spaces k s.reverse
  simp only [trimStart] at h
  simp only [trimEnd, List.reverse_append]
  have hr : (spaces k).reverse = spaces k := by simp [spaces]
  rw [hr, h]

lemma trimEnd_concat (s : JSString) (c : Nat) (hc : isWhiteSpace c = false) :
    trimEnd (s ++ [c]) = s ++ [c] := by
  simp [trimEnd, List.dropWhile_cons, hc]

lemma body_head (first : JSString) (tail : JSString) (hfirst : IsWord first) :
    ∃ c s, first ++ tail = c :: s ∧ isWhiteSpace c = false := by
  obtain ⟨hne, hws⟩ := hfirst
  cases first with
  | nil => exact absurd rfl hne
  | cons c w => exact ⟨c, w ++ tail, rfl, hws c (by simp)⟩

lemma word_last (w : JSString) (hw : IsWord w) :
    ∃ init c, w = init ++ [c] ∧ isWhiteSpace c = false := by
  obtain ⟨hne, hws⟩ := hw
  rcases List.eq_nil_or_concat w with h | ⟨init, c, h⟩
  · exact absurd h hne
  · have h' : w = init ++ [c] := by simpa using h
    exact ⟨init, c, h', hws c (by simp [h'])⟩

lemma body_last (first : JSString) (rest : List (Nat × JSString)) (hfirst : IsWord first)
    (hrest : ∀ gw ∈ rest, IsWord gw.2) :
    ∃ init c, (first ++ rest.flatMap fun gw => spaces (gw.1 + 1) ++ gw.2) = init ++ [c] ∧
      isWhiteSpace c = false := by
  rcases List.eq_nil_or_concat rest with h | ⟨rest', gw, h⟩
  · subst h
    obtain ⟨init, c, h1, h2⟩ := word_last first hfirst
    exact ⟨init, c, by simpa using h1, h2⟩
  · subst h
    obtain ⟨init, c, h1, h2⟩ := word_last gw.2 (hrest gw (by simp))
    refine ⟨first ++ (rest'.flatMap fun gw => spaces (gw.1 + 1) ++ gw.2) ++
      spaces (gw.1 + 1) ++ init, c, ?_, h2⟩
    simp [List.flatMap_append, h1]

lemma trim_spacedName (lead trail : Nat) (first : JSString) (rest : List (Nat × JSString))
    (hfirst : IsWord first) (hrest : ∀ gw ∈ rest, IsWord gw.2) :
    trim (spacedName lead first rest trail) =
      first ++ rest.flatMap fun gw => spaces (gw.1 + 1) ++ gw.2 := by
  obtain ⟨c, s, hcs, hc⟩ := body_head first
    ((rest.flatMap fun gw => spaces (gw.1 + 1) ++ gw.2) ++ spaces trail) hfirst
  obtain ⟨init, d, hid, hd⟩ := body_last first rest hfirst hrest
  have e : spacedName lead first rest trail =
      spaces lead ++ (first ++ ((rest.flatMap fun gw => spaces (gw.1 + 1) ++ gw.2) ++
        spaces trail)) := by
    simp [spacedName, List.append_assoc]
  rw [trim, e, trimStart_spaces, hcs, trimStart_cons c s hc, ← hcs, ← List.append_assoc,
    trimEnd_spaces, hid, trimEnd_concat init d hd]

lemma trim_spaces (k : Nat) : trim (spaces k) = [] := by
  have h := trimStart_spaces k []
  rw [List.append_nil] at h
  rw [trim, h]
  simp [trimStart, trimEnd]

/-! ## Profile initials: the claim -/

/-- C8. With both elements present, `updateProfileInitials` leaves the h1
alone and sets the placeholder text to the concatenation, in order, of the
upper-cased first character of every non-empty piece of the trimmed h1 text
split on the space character. Hence a name made of the words `first`,
`rest.map Prod.snd` (non-empty, free of white space), separated by one or more
spaces and with any number of spaces around, yields the initials of these
words in order, and a name of `k` spaces (`k = 0` is the empty name) yields
the empty string. -/
theorem updateProfileInitials_initials (toUpperCase : JSString → JSString)
    (placeholder : JSString) :
    (∀ text : JSString,
      updateProfileInitials toUpperCase
          { profilePlaceholder := some placeholder, nameElement := some text } =
        { profilePlaceholder := some (join (((split 32 (trim text)).filter
            fun word => decide (word.length > 0)).map fun word => toUpperCase (charAt word 0))),
          nameElement := some text }) ∧
    (∀ (lead trail : Nat) (first : JSString) (rest : List (Nat × JSString)),
      IsWord first → (∀ gw ∈ rest, IsWord gw.2) →
      updateProfileInitials toUpperCase
          { profilePlaceholder := some placeholder,
            nameElement := some (spacedName lead first rest trail) } =
        { profilePlaceholder := some (join ((first :: rest.map Prod.snd).map
            fun word => toUpperCase (charAt word 0))),
          nameElement := some (spacedName lead first rest trail) }) ∧
    (∀ k : Nat,
      updateProfileInitials toUpperCase
          { profilePlaceholder := some placeholder, nameElement := some (spaces k) } =
        { profilePlaceholder := some [], nameElement := some (spaces k) }) := by
  refine ⟨fun text => rfl, ?_, ?_⟩
  · intro lead trail first rest hfirst hrest
    have h := nameWords_body first rest hfirst hrest
    simp only [nameWords] at h
    simp only [updateProfileInitials, trim_spacedName lead trail first rest hfirst hrest, h]
  · intro k
    simp [updateProfileInitials, trim_spaces, split, join]

/-- C8, at the name `"  john  q doe "` with ASCII upper-casing: the
placeholder becomes `"JQD"`. -/
theorem updateProfileInitials_initials_witness :
    updateProfileInitials asciiUpper
        { profilePlaceholder := some [63],
          nameElement := some (spacedName 2 [106, 111, 104, 110]
            [(1, [113]), (0, [100, 111, 101])] 1) } =
      { profilePlaceholder := some [74, 81, 68],
        nameElement := some [32, 32, 106, 111, 104, 110, 32, 32, 113, 32, 100, 111, 101, 32] } := by
  have h := (updateProfileInitials_initials asciiUpper [63]).2.1 2 1 [106, 111, 104, 110]
    [(1, [113]), (0, [100, 111, 101])] ⟨by decide, by decide⟩
    (by
      intro gw hgw
      simp only [List.mem_cons, List.mem_singleton, List.not_mem_nil, or_false] at hgw
      rcases hgw with rfl | rfl <;> exact ⟨by decide, by decide⟩)
  rw [h]
  decide

/-! ## Scroll throttle: the claims -/

lemma reached_idle_or_scheduled (y h : ℚ) (header : Option HeaderTransform)
    (events : List BrowserEvent) :
    Idle (reached y h header events) ∨ FrameScheduled (reached y h header events) :=
  idle_or_scheduled_foldl events _ (Or.inl ⟨rfl, rfl⟩)

/-- C2. In every state reached from the initial state of
`optimizeScrollPerformance` by any sequence of scroll events, resizes and
animation frames, at most one frame callback is pending and `ticking` is true
exactly when one is pending. From such a state: a scroll event with `ticking`
clear sets it and registers one callback; a scroll event with `ticking` set
registers nothing and leaves it set; an animation frame with `ticking` set runs
`updateScrollPosition` once and leaves the coordinator idle. -/
theorem ticking_iff_frame_pending (y h : ℚ) (header : Option HeaderTransform)
    (events : List BrowserEvent) :
    (reached y h header events).pendingFrames ≤ 1 ∧
    ((reached y h header events).ticking = true ↔
      (reached y h header events).pendingFrames = 1) ∧
    (∀ y' : ℚ, (reached y h header events).ticking = false →
      FrameScheduled (dispatch (reached y h header events) (BrowserEvent.scroll y'))) ∧
    (∀ y' : ℚ, (reached y h header events).ticking = true →
      FrameScheduled (dispatch (reached y h header events) (BrowserEvent.scroll y')) ∧
      (dispatch (reached y h header events) (BrowserEvent.scroll y')).pendingFrames =
        (reached y h header events).pendingFrames) ∧
    ((reached y h header events).ticking = true →
      Idle (dispatch (reached y h header events) BrowserEvent.animationFrame) ∧
      (dispatch (reached y h header events) BrowserEvent.animationFrame).updates =
        (reached y h header events).updates + 1) := by
  have hinv := reached_idle_or_scheduled y h header events
  refine ⟨?_, ?_, ?_, ?_, ?_⟩
  · rcases hinv with ⟨_, hp⟩ | ⟨_, hp⟩ <;> omega
  · rcases hinv with ⟨ht, hp⟩ | ⟨ht, hp⟩ <;> simp [ht, hp]
  · intro y' ht
    rcases hinv with hi | ⟨ht', _⟩
    · exact requestTick_of_idle _ ⟨hi.1, hi.2⟩
    · rw [ht] at ht'
      exact absurd ht' (by decide)
  · intro y' ht
    rcases hinv with ⟨ht', _⟩ | hs
    · rw [ht] at ht'
      exact absurd ht' (by decide)
    · have hs' : FrameScheduled { reached y h header events with pageYOffset := y' } :=
        ⟨hs.1, hs.2⟩
      have e : dispatch (reached y h header events) (BrowserEvent.scroll y') =
          { reached y h header events with pageYOffset := y' } :=
        requestTick_of_scheduled _ hs'
      rw [e]
      exact ⟨hs', rfl⟩
  · intro ht
    rcases hinv with ⟨ht', _⟩ | hs
    · rw [ht] at ht'
      exact absurd ht' (by decide)
    · exact frame_of_scheduled _ hs

/-- C2, after the events scroll, scroll, frame, scroll on a page without
header: one callback pending, flag set. -/
theorem ticking_iff_frame_pending_witness :
    (reached 0 800 none [BrowserEvent.scroll 10, BrowserEvent.scroll 20,
        BrowserEvent.animationFrame, BrowserEvent.scroll 30]).pendingFrames ≤ 1 ∧
      ((reached 0 800 none [BrowserEvent.scroll 10, BrowserEvent.scroll 20,
        BrowserEvent.animationFrame, BrowserEvent.scroll 30]).ticking = true ↔
       (reached 0 800 none [BrowserEvent.scroll 10, BrowserEvent.scroll 20,
        BrowserEvent.animationFrame, BrowserEvent.scroll 30]).pendingFrames = 1) :=
  ⟨(ticking_iff_frame_pending 0 800 none _).1, (ticking_iff_frame_pending 0 800 none _).2.1⟩

/-- C3. From an idle coordinator, `M ≥ 1` scroll events (with any offsets
`ys`) delivered before the next animation frame execute
`updateScrollPosition` zero times and leave one frame callback registered;
when that frame fires `updateScrollPosition` has executed exactly once, and
the coordinator is idle again. -/
theorem scroll_burst_updates_once (s : ScrollCoordinator) (M : Nat) (ys : List ℚ)
    (hM : 1 ≤ M) (hlen : ys.length = M) (hidle : Idle s) :
    ((ys.map BrowserEvent.scroll).foldl dispatch s).updates = s.updates ∧
    FrameScheduled ((ys.map BrowserEvent.scroll).foldl dispatch s) ∧
    (dispatch ((ys.map BrowserEvent.scroll).foldl dispatch s)
      BrowserEvent.animationFrame).updates = s.updates + 1 ∧
    Idle (dispatch ((ys.map BrowserEvent.scroll).foldl dispatch s)
      BrowserEvent.animationFrame) := by
  cases ys with
  | nil =>
    simp only [List.length_nil] at hlen
    omega
  | cons y ys =>
    have hfirst : FrameScheduled (dispatch s (BrowserEvent.scroll y)) :=
      requestTick_of_idle _ ⟨hidle.1, hidle.2⟩
    have hupd : (dispatch s (BrowserEvent.scroll y)).updates = s.updates := by
      simp only [dispatch, requestTick]
      split <;> rfl
    obtain ⟨hs, hu⟩ := scrolls_of_scheduled ys _ hfirst
    simp only [List.map_cons, List.foldl_cons]
    obtain ⟨hidle', hone⟩ := frame_of_scheduled _ hs
    exact ⟨hu.trans hupd, hs, by rw [hone, hu, hupd], hidle'⟩

/-- C3, at three scroll events delivered to the freshly set up coordinator. -/
theorem scroll_burst_updates_once_witness :
    (dispatch ((([10, 25, 40] : List ℚ).map BrowserEvent.scroll).foldl dispatch
        (optimizeScrollPerformance 0 800 none)) BrowserEvent.animationFrame).updates = 0 + 1 ∧
      Idle (dispatch ((([10, 25, 40] : List ℚ).map BrowserEvent.scroll).foldl dispatch
        (optimizeScrollPerformance 0 800 none)) BrowserEvent.animationFrame) :=
  ⟨(scroll_burst_updates_once (optimizeScrollPerformance 0 800 none) 3 [10, 25, 40]
      (by decide) rfl ⟨rfl, rfl⟩).2.2.1,
   (scroll_burst_updates_once (optimizeScrollPerformance 0 800 none) 3 [10, 25, 40]
      (by decide) rfl ⟨rfl, rfl⟩).2.2.2⟩

/-- C4. When `updateScrollPosition` runs at scroll offset `s` and viewport
height `h` with a header present whose transform is `t`: the transform
afterwards is `translateY(r px)` with `r = s * -0.5` if `s < h`, and is `t`,
unchanged, if `s ≥ h`. -/
theorem updateScrollPosition_header (c : ScrollCoordinator) (s h : ℚ) (t : HeaderTransform) :
    (updateScrollPosition
        { c with pageYOffset := s, innerHeight := h, header := some t }).header =
      some (if s < h then HeaderTransform.translateYpx (s * (-0.5)) else t) := by
  by_cases hlt : s < h <;> simp [updateScrollPosition, hlt]

/-- C4, at offset 100 under a viewport of height 800 (transform becomes
`translateY(-50px)`) and at offset 800 (transform stays). -/
theorem updateScrollPosition_header_witness :
    (updateScrollPosition
        { optimizeScrollPerformance 100 800 (some (HeaderTransform.initial "none")) with
          pageYOffset := 100, innerHeight := 800,
          header := some (HeaderTransform.initial "none") }).header =
      some (HeaderTransform.translateYpx (-50)) ∧
    (updateScrollPosition
        { optimizeScrollPerformance 100 800 (some (HeaderTransform.initial "none")) with
          pageYOffset := 800, innerHeight := 800,
          header := some (HeaderTransform.translateYpx (-399)) }).header =
      some (HeaderTransform.translateYpx (-399)) := by
  constructor
  · rw [updateScrollPosition_header]
    norm_num
  · rw [updateScrollPosition_header]
    norm_num

/-! ## Intersection observer: the claim -/

lemma intersectionCallback_observed (entries : List IntersectionObserverEntry) (p : Page) :
    (intersectionCallback entries p).observed = p.observed := by
  induction entries generalizing p with
  | nil => rfl
  | cons entry entries ih =>
    simp only [intersectionCallback, List.foldl_cons] at ih ⊢
    rw [ih]
    simp only [revealEntry, classListAdd, animateSkillTags, animateServiceCards,
      forEachFrom_setTimeout]
    repeat' split
    all_goals rfl

/-- No delivery of entries ever shrinks the set the observer watches: the
callback of `setupScrollAnimations` never calls `unobserve`. -/
lemma deliver_observed (p : Page) (entries : List IntersectionObserverEntry) :
    (deliver p entries).observed = p.observed :=
  intersectionCallback_observed _ p

/-- C1 fails on the code. A skills-grid that is reported as intersecting,
then as not intersecting, then as intersecting again is revealed twice: the
reveal branch has run twice for it, `animateSkillTags` has been launched twice
(four outer timers for its two tags), the class list holds `fade-in` once, and
the observer still watches the grid after the first and after the second
reveal. -/
theorem setupScrollAnimations_reveals_again :
    revealCount revealedOnce 5 = 1 ∧ revealedOnce.observed = [5] ∧
    revealedOnce.timers.length = 2 ∧
    revealCount revealedAgain 5 = 2 ∧ revealedAgain.observed = [5] ∧
    revealedAgain.timers.length = 4 ∧
    revealedAgain.classList 5 = ["skills-grid", "fade-in"] := by
  decide

/-! ## Missing elements and the click handler: the claims -/

/-- Where the lookup yields `null`, a missing optional element makes each of
the three functions a silent no-op. (a) `updateScrollPosition` without a
header element only clears `ticking` (and is counted as one execution): no
style is written. (b) `updateProfileInitials` with the placeholder or the h1
missing returns the document unchanged. (c) The click handler, when
`querySelector` returns `null` for the href, ends without exception, having
called neither `window.scrollTo` nor `history.pushState`; it has only called
`preventDefault`. -/
lemma missing_element_is_noop :
    (∀ s : ScrollCoordinator, s.header = none →
      updateScrollPosition s = { s with ticking := false, updates := s.updates + 1 }) ∧
    (∀ (toUpperCase : JSString → JSString) (doc : ProfileDocument),
      doc.profilePlaceholder = none ∨ doc.nameElement = none →
      updateProfileInitials toUpperCase doc = doc) ∧
    (∀ (doc : NavDocument) (href : JSString) (b : Browser),
      doc.querySelector href = Except.ok none →
      navLinkClick doc href b =
        { browser := { b with defaultPrevented := true }, thrown := none }) := by
  refine ⟨?_, ?_, ?_⟩
  · intro s hs
    simp [updateScrollPosition, hs]
  · intro toUpperCase doc h
    obtain ⟨placeholder, name⟩ := doc
    rcases h with h | h
    · simp only at h
      subst h
      rfl
    · simp only at h
      subst h
      cases placeholder <;> rfl
  · intro doc href b h
    simp [navLinkClick, h]

/-- C9 fails on the code in part (c). A click on a link `<a href="#">`, which
`a[href^="#"]` selects and for which the document has no target element:
`document.querySelector('#')` throws a `SyntaxError` at line 34, before the
existence check of line 36, so the handler ends with an exception instead of
being a silent no-op (no scroll is requested and no URL is pushed). -/
theorem navLinkClick_bare_hash_throws :
    navLinkClick bareHashDocument [35]
        { pageYOffset := 0, scrollRequests := [], pushedUrls := [], defaultPrevented := false } =
      { browser := { pageYOffset := 0, scrollRequests := [], pushedUrls := [],
                     defaultPrevented := true },
        thrown := some (JSError.syntaxError "'#' is not a valid selector") } := by
  decide

/-- Whenever the target element exists, the click handler ends with a
`TypeError` at `target.getBoundingClientPosition()`, before `window.scrollTo`
and `history.pushState`. -/
lemma navLinkClick_of_target (doc : NavDocument) (href : JSString) (b : Browser)
    (target : ElemId) (h : doc.querySelector href = Except.ok (some target)) :
    navLinkClick doc href b =
      { browser := { b with defaultPrevented := true },
        thrown := some
          (JSError.typeError "target.getBoundingClientPosition is not a function") } := by
  have hm : elementMethod doc "getBoundingClientPosition" = none := by
    unfold elementMethod
    rw [if_neg (by decide)]
  simp only [navLinkClick, h, hm]

/-- C10 fails on the code. A click on a link with `href="#about"`, the
element existing 900 px below the viewport top and the page scrolled to 200:
the handler ends with a `TypeError`, no scroll has been requested (the claim
expects one to top = 900 + 200 - 80) and no URL has been pushed. -/
theorem navLinkClick_throws :
    navLinkClick aboutDocument [35, 97, 98, 111, 117, 116]
        { pageYOffset := 200, scrollRequests := [], pushedUrls := [],
          defaultPrevented := false } =
      { browser := { pageYOffset := 200, scrollRequests := [], pushedUrls := [],
                     defaultPrevented := true },
        thrown := some
          (JSError.typeError "target.getBoundingClientPosition is not a function") } :=
  navLinkClick_of_target aboutDocument _ _ 3 rfl

end Portfolio
